import Mathlib

/-!
Verification development for the phone-order print server
(`src/server.js` and `src/dashboard/app.js`).

The JavaScript source is shallowly embedded:
* JSON values are the inductive `JsonVal`, with JavaScript numbers modelled
  as rationals (every double that the in-scope paths produce is a decimal
  fraction, so this is exact on those paths);
* the SQLite table `orders` is a list of `Row`s plus the next
  auto-increment id;
* each HTTP handler is a pure function from (environment, clock, store,
  request) to (store, response, outbound network calls);
* the wall clock (`Date.now()`, `toLocaleTimeString()`) is passed in
  explicitly, and `fetch` is an oracle carried by the environment.
-/

namespace PrintServer

/-! ### Decimal digits

`Number.prototype.toString()` on a non-negative integer produces its
decimal digits.  `digitsGo` is the executable (fuel-driven) digit loop;
`decDigitsRevW` is its well-founded twin used in proofs. -/

/-- Fuel-driven little-endian decimal digit list of a natural number. -/
def digitsGo : Nat → Nat → List Nat
  | 0, _ => []
  | f + 1, n => if n < 10 then [n] else n % 10 :: digitsGo f (n / 10)

/-- Little-endian decimal digits of `n`; at least one digit, so `0 ↦ [0]`. -/
def decDigitsRev (n : Nat) : List Nat := digitsGo (n + 1) n

/-- Proof-side twin of `decDigitsRev`, by well-founded recursion. -/
def decDigitsRevW (n : Nat) : List Nat :=
  if h : n < 10 then [n] else n % 10 :: decDigitsRevW (n / 10)
termination_by n
decreasing_by exact Nat.div_lt_self (by omega) (by omega)

/-- Little-endian list of exactly `k` decimal digits of `b` (zero padded). -/
def padDigitsRev : Nat → Nat → List Nat
  | 0, _ => []
  | k + 1, b => b % 10 :: padDigitsRev k (b / 10)

/-! ### Strings and numbers as JavaScript renders them -/

/-- Decimal string of a natural number, as `Number.prototype.toString()`
    renders a non-negative integer. -/
def jsNatStr (n : Nat) : String :=
  String.mk ((decDigitsRev n).reverse.map Nat.digitChar)

/-- Decimal string of an integer. -/
def jsIntStr (i : Int) : String :=
  (if i < 0 then "-" else "") ++ jsNatStr i.natAbs

/-- JavaScript `s.slice(-6)`: the last six characters, or the whole string
    when it is shorter than six characters. -/
def sliceLastSix (s : String) : String :=
  String.mk (s.data.drop (s.data.length - 6))

/-- Order number generated by the intake handler (server.js line 61):
    `"#" + Date.now().toString().slice(-6)`. -/
def orderNumberOf (now : Nat) : String :=
  "#" ++ sliceLastSix (jsNatStr now)

/-- Specification-side reading of "the last six decimal digits of the
    timestamp": the six-character zero-padded decimal numeral of
    `now % 1000000`. -/
def lastSixTimestampDigits (now : Nat) : String :=
  String.mk ((padDigitsRev 6 (now % 1000000)).reverse.map Nat.digitChar)

/-- JavaScript `x.toFixed(2)` on the rational model of the number: a
    negative value renders as `-` followed by the rendering of its
    magnitude, and the magnitude rounds half up to hundredths and prints
    with exactly two decimals (integer arithmetic only, so that the
    definition evaluates by kernel reduction). -/
def toFixed2 (q : Rat) : String :=
  let m : Nat := (200 * q.num.natAbs + q.den) / (2 * q.den)
  (if q.num < 0 then "-" else "") ++ jsNatStr (m / 100) ++ "."
    ++ String.mk [Nat.digitChar (m / 10 % 10), Nat.digitChar (m % 10)]

/-- Bounded search for the least exponent `k` (starting at the given one)
    with `den ∣ 10^k`. -/
def pow10SearchGo : Nat → Nat → Nat → Option Nat
  | 0, _, _ => none
  | f + 1, k, den => if (10 : Nat) ^ k % den = 0 then some k else pow10SearchGo f (k + 1) den

/-- Decimal rendering of a rational number, matching how JavaScript prints
    the doubles reachable in this program (integers and finite decimal
    fractions; doubles always have a power-of-two denominator, so the
    search for an exponent `k` with `den ∣ 10^k` succeeds on every value a
    double can hold in this range). -/
def ratDecStr (q : Rat) : String :=
  if q.den = 1 then jsIntStr q.num
  else
    match pow10SearchGo 1101 1 q.den with
    | some k =>
        let m : Int := q.num * ((10 : Nat) ^ k / q.den : Nat)
        let digs := (decDigitsRev m.natAbs).reverse.map Nat.digitChar
        let digs := List.replicate (k + 1 - digs.length) '0' ++ digs
        (if m < 0 then "-" else "")
          ++ String.mk (digs.take (digs.length - k)) ++ "."
          ++ String.mk (digs.drop (digs.length - k))
    | none => jsIntStr q.num ++ "/" ++ jsNatStr q.den

/-! ### JSON values -/

/-- JSON values (JavaScript numbers modelled as rationals). -/
inductive JsonVal where
  | null : JsonVal
  | bool : Bool → JsonVal
  | num : Rat → JsonVal
  | str : String → JsonVal
  | arr : List JsonVal → JsonVal
  | obj : List (String × JsonVal) → JsonVal

/-- Truthiness of a JavaScript string-or-undefined value
    (`undefined` and the empty string are falsy). -/
def strTruthy : Option String → Bool
  | none => false
  | some s => s ≠ ""

/-- Model of the `x || d` defaulting idiom on string-valued fields. -/
def jsOrDefault (x : Option String) (d : String) : String :=
  match x with
  | none => d
  | some s => if s = "" then d else s

/-- Model of the `total || 0` defaulting idiom (an absent total becomes 0;
    a present 0 is falsy but defaults to the same value). -/
def ratOrDefault (x : Option Rat) : Rat := x.getD 0

/-- Truthiness of a JSON value (a rational is zero iff its numerator is). -/
def JsonVal.truthy : JsonVal → Bool
  | .null => false
  | .bool b => b
  | .num q => q.num ≠ 0
  | .str s => s ≠ ""
  | .arr _ => true
  | .obj _ => true

/-- Lookup of an object property; the last binding wins, as in JavaScript. -/
def lookupLast (kvs : List (String × JsonVal)) (k : String) : Option JsonVal :=
  kvs.foldl (fun acc p => if p.1 = k then some p.2 else acc) none

/-- JavaScript property access `v[k]` on a JSON value: access on `null`
    throws a `TypeError`; objects look the key up; strings and arrays have
    a `length` property; other primitives yield `undefined` (`.ok none`). -/
def jsGet : JsonVal → String → Except String (Option JsonVal)
  | .null, k =>
      .error ("TypeError: Cannot read properties of null (reading " ++ k ++ ")")
  | .obj kvs, k => .ok (lookupLast kvs k)
  | .str s, k => .ok (if k = "length" then some (.num (mkRat s.length 1)) else none)
  | .arr l, k => .ok (if k = "length" then some (.num (mkRat l.length 1)) else none)
  | .bool _, _ => .ok none
  | .num _, _ => .ok none

mutual

/-- JavaScript string conversion (`String(x)` and template interpolation)
    of a JSON value: arrays join their elements with commas, objects print
    `[object Object]`. -/
def jsDisplay : JsonVal → String
  | .null => "null"
  | .bool b => cond b "true" "false"
  | .num q => ratDecStr q
  | .str s => s
  | .arr l => arrDisplay l
  | .obj _ => "[object Object]"

/-- Comma join of array elements under string conversion; `null` renders
    empty inside an array. -/
def arrDisplay : List JsonVal → String
  | [] => ""
  | [.null] => ""
  | [v] => jsDisplay v
  | .null :: rest => "," ++ arrDisplay rest
  | v :: rest => jsDisplay v ++ "," ++ arrDisplay rest

end

/-- String conversion of a possibly-undefined value (`undefined` prints
    as the word "undefined" in a template literal). -/
def jsDisplayOpt : Option JsonVal → String
  | none => "undefined"
  | some v => jsDisplay v

/-- Escape of one character inside a JSON string literal, as
    `JSON.stringify` emits it. -/
def escapeJsonChar (c : Char) : List Char :=
  if c = '"' then ['\\', '"']
  else if c = '\\' then ['\\', '\\']
  else if c = '\n' then ['\\', 'n']
  else if c = '\r' then ['\\', 'r']
  else if c = '\t' then ['\\', 't']
  else if c.toNat = 8 then ['\\', 'b']
  else if c.toNat = 12 then ['\\', 'f']
  else if c.toNat < 32 then
    ['\\', 'u', '0', '0', Nat.digitChar (c.toNat / 16), Nat.digitChar (c.toNat % 16)]
  else [c]

/-- Quoted JSON string literal. -/
def quoteJsonStr (s : String) : String :=
  "\"" ++ String.mk (s.data.map escapeJsonChar).flatten ++ "\""

mutual

/-- Model of `JSON.stringify` on JSON values. -/
def stringifyVal : JsonVal → String
  | .null => "null"
  | .bool b => cond b "true" "false"
  | .num q => ratDecStr q
  | .str s => quoteJsonStr s
  | .arr l => "[" ++ stringifyElems l ++ "]"
  | .obj kvs => "\x7b" ++ stringifyMembers kvs ++ "\x7d"

/-- Comma-joined serialized array elements. -/
def stringifyElems : List JsonVal → String
  | [] => ""
  | [v] => stringifyVal v
  | v :: rest => stringifyVal v ++ "," ++ stringifyElems rest

/-- Comma-joined serialized object members. -/
def stringifyMembers : List (String × JsonVal) → String
  | [] => ""
  | [(k, v)] => quoteJsonStr k ++ ":" ++ stringifyVal v
  | (k, v) :: rest => quoteJsonStr k ++ ":" ++ stringifyVal v ++ "," ++ stringifyMembers rest

end

/-! ### A model of `JSON.parse`

Strict recursive-descent JSON parsing over the character list, with fuel
for the nested value recursion.  `parseJson` either returns the parsed
value or `none`, modelling the `SyntaxError` exception `JSON.parse`
throws on malformed input. -/

/-- Message of the exception `JSON.parse` throws on malformed input. -/
def jsonParseErrMsg : String := "SyntaxError: Unexpected token in JSON"

/-- Skip JSON whitespace. -/
def skipWs : List Char → List Char
  | [] => []
  | c :: cs => if c = ' ' ∨ c = '\t' ∨ c = '\n' ∨ c = '\r' then skipWs cs else c :: cs

/-- Value of a hexadecimal digit. -/
def hexVal (c : Char) : Option Nat :=
  if '0' ≤ c ∧ c ≤ '9' then some (c.toNat - 48)
  else if 'a' ≤ c ∧ c ≤ 'f' then some (c.toNat - 87)
  else if 'A' ≤ c ∧ c ≤ 'F' then some (c.toNat - 55)
  else none

/-- Decoding of a single-character JSON escape. -/
def escDecode : Char → Option Char
  | '"' => some '"'
  | '\\' => some '\\'
  | '/' => some '/'
  | 'b' => some (Char.ofNat 8)
  | 'f' => some (Char.ofNat 12)
  | 'n' => some '\n'
  | 'r' => some '\r'
  | 't' => some '\t'
  | _ => none

/-- Body of a JSON string literal after the opening quote: the decoded
    characters and the input after the closing quote. -/
def parseStrBody : List Char → Option (List Char × List Char)
  | [] => none
  | '"' :: rest => some ([], rest)
  | '\\' :: 'u' :: a :: b :: c :: d :: rest =>
      (match hexVal a, hexVal b, hexVal c, hexVal d with
       | some x, some y, some z, some w =>
           (parseStrBody rest).map fun p =>
             (Char.ofNat (((x * 16 + y) * 16 + z) * 16 + w) :: p.1, p.2)
       | _, _, _, _ => none)
  | '\\' :: e :: rest =>
      (match escDecode e with
       | some c => (parseStrBody rest).map fun p => (c :: p.1, p.2)
       | none => none)
  | c :: rest =>
      if c.toNat < 32 then none
      else (parseStrBody rest).map fun p => (c :: p.1, p.2)

/-- Longest prefix of decimal digits and the remainder. -/
def digitSpan : List Char → List Char × List Char
  | [] => ([], [])
  | c :: cs =>
      if c.isDigit then
        let p := digitSpan cs
        (c :: p.1, p.2)
      else ([], c :: cs)

/-- Natural number denoted by a digit list. -/
def digitsToNat (ds : List Char) : Nat :=
  ds.foldl (fun a c => a * 10 + (c.toNat - 48)) 0

/-- Exponent tail of a JSON number, after the `e`/`E` marker. -/
def parseExpTail (r : List Char) : Option (Int × List Char) :=
  let p : Bool × List Char :=
    match r with
    | '-' :: t => (true, t)
    | '+' :: t => (false, t)
    | _ => (false, r)
  match digitSpan p.2 with
  | ([], _) => none
  | (ds, r2) => some ((if p.1 then -1 else 1) * (digitsToNat ds : Int), r2)

/-- JSON number token (strict JSON grammar: optional minus, no leading
    zeros, optional fraction and exponent), valued in the rationals. -/
def parseNumTok (input : List Char) : Option (Rat × List Char) :=
  let s : Bool × List Char :=
    match input with
    | '-' :: r => (true, r)
    | _ => (false, input)
  match digitSpan s.2 with
  | ([], _) => none
  | (ds, r1) =>
      if 1 < ds.length ∧ ds.head? = some '0' then none
      else
        let fracRes : Option (Rat × List Char) :=
          match r1 with
          | '.' :: r2 =>
              (match digitSpan r2 with
               | ([], _) => none
               | (fs, r3) => some (mkRat (digitsToNat fs : Int) ((10 : Nat) ^ fs.length), r3))
          | _ => some (0, r1)
        match fracRes with
        | none => none
        | some (frac, r3) =>
            let expRes : Option (Int × List Char) :=
              match r3 with
              | 'e' :: r4 => parseExpTail r4
              | 'E' :: r4 => parseExpTail r4
              | _ => some (0, r3)
            match expRes with
            | none => none
            | some (e, r5) =>
                let base : Rat :=
                  mkRat ((digitsToNat ds : Int) * frac.den + frac.num) frac.den
                let v : Rat :=
                  if 0 ≤ e then mkRat (base.num * ((10 : Nat) ^ e.toNat : Int)) base.den
                  else mkRat base.num (base.den * (10 : Nat) ^ (-e).toNat)
                some ((if s.1 then mkRat (-v.num) v.den else v), r5)

mutual

/-- Fuel-driven JSON value: parses one value and returns the remainder. -/
def parseValGo : Nat → List Char → Option (JsonVal × List Char)
  | 0, _ => none
  | f + 1, input =>
      match skipWs input with
      | 'n' :: 'u' :: 'l' :: 'l' :: r => some (.null, r)
      | 't' :: 'r' :: 'u' :: 'e' :: r => some (.bool true, r)
      | 'f' :: 'a' :: 'l' :: 's' :: 'e' :: r => some (.bool false, r)
      | '"' :: r => (parseStrBody r).map fun p => (.str (String.mk p.1), p.2)
      | '[' :: r =>
          (match skipWs r with
           | ']' :: r2 => some (.arr [], r2)
           | _ => (parseElemsGo f r).map fun p => (.arr p.1, p.2))
      | '\x7b' :: r =>
          (match skipWs r with
           | '\x7d' :: r2 => some (.obj [], r2)
           | _ => (parseMembersGo f r).map fun p => (.obj p.1, p.2))
      | other => (parseNumTok other).map fun p => (.num p.1, p.2)

/-- Fuel-driven nonempty array element list, consuming the closing `]`. -/
def parseElemsGo : Nat → List Char → Option (List JsonVal × List Char)
  | 0, _ => none
  | f + 1, input =>
      match parseValGo f input with
      | none => none
      | some (v, r) =>
          match skipWs r with
          | ',' :: r2 => (parseElemsGo f r2).map fun p => (v :: p.1, p.2)
          | ']' :: r2 => some ([v], r2)
          | _ => none

/-- Fuel-driven nonempty object member list, consuming the closing brace. -/
def parseMembersGo : Nat → List Char → Option (List (String × JsonVal) × List Char)
  | 0, _ => none
  | f + 1, input =>
      match skipWs input with
      | '"' :: r =>
          (match parseStrBody r with
           | none => none
           | some (key, r1) =>
               match skipWs r1 with
               | ':' :: r2 =>
                   (match parseValGo f r2 with
                    | none => none
                    | some (v, r3) =>
                        match skipWs r3 with
                        | ',' :: r4 =>
                            (parseMembersGo f r4).map fun p =>
                              ((String.mk key, v) :: p.1, p.2)
                        | '\x7d' :: r4 => some ([(String.mk key, v)], r4)
                        | _ => none)
               | _ => none)
      | _ => none

end

/-- Model of `JSON.parse`: `none` models the thrown `SyntaxError`. -/
def parseJson (s : String) : Option JsonVal :=
  match parseValGo (2 * s.length + 2) s.data with
  | some (v, rest) => if skipWs rest = [] then some v else none
  | none => none

/-! ### JavaScript numeric coercion for the `length > 0` guard

The item loop (server.js 182) evaluates `item.modifications.length > 0`.
A relational comparison coerces its operand to a number: `undefined` and
objects give `NaN` (comparison false), `null` gives 0, booleans give 0/1,
strings parse as numeric literals after trimming (the empty string is 0),
and arrays coerce through their comma-joined string form. -/

/-- Trim of leading and trailing whitespace (the JavaScript trim also
    covers further Unicode spaces, which JSON string data in scope does
    not contain). -/
def trimWs (l : List Char) : List Char :=
  (skipWs (skipWs l).reverse).reverse

/-- Application of an exponent tail to a parsed decimal base; the tail
    must consume the whole remaining input. -/
def expApply (base : Rat) (r : List Char) : Option Rat :=
  match parseExpTail r with
  | some (e, []) =>
      some (if 0 ≤ e then mkRat (base.num * ((10 : Nat) ^ e.toNat : Int)) base.den
            else mkRat base.num (base.den * (10 : Nat) ^ (-e).toNat))
  | _ => none

/-- JavaScript decimal numeric literal (unsigned): `digits`, `digits.`,
    `digits.digits`, `.digits`, each with an optional exponent; the whole
    input must be consumed.  Unlike JSON, leading zeros and a bare
    trailing dot are allowed. -/
def parseJsDecimal (t : List Char) : Option Rat :=
  let ip := digitSpan t
  match ip.2 with
  | [] => if ip.1 = [] then none else some (mkRat (digitsToNat ip.1) 1)
  | '.' :: r2 =>
      let fp := digitSpan r2
      if ip.1 = [] ∧ fp.1 = [] then none
      else
        let base : Rat :=
          mkRat (digitsToNat ip.1 * (10 : Nat) ^ fp.1.length + digitsToNat fp.1)
            ((10 : Nat) ^ fp.1.length)
        (match fp.2 with
         | [] => some base
         | 'e' :: r4 => expApply base r4
         | 'E' :: r4 => expApply base r4
         | _ => none)
  | 'e' :: r4 =>
      if ip.1 = [] then none else expApply (mkRat (digitsToNat ip.1) 1) r4
  | 'E' :: r4 =>
      if ip.1 = [] then none else expApply (mkRat (digitsToNat ip.1) 1) r4
  | _ => none

/-- Model of `Number(s) > 0` for a string operand: trimmed empty is 0,
    `Infinity` is positive, `0x…` parses as hexadecimal, otherwise an
    optionally signed decimal literal; anything else is `NaN`, and both
    `NaN > 0` and a non-positive value give `false`. -/
def jsStrGtZero (s : String) : Bool :=
  let t := trimWs s.data
  if t = [] then false
  else if t = "Infinity".data ∨ t = "+Infinity".data then true
  else
    match t with
    | '0' :: 'x' :: r =>
        !r.isEmpty && r.all (fun c => (hexVal c).isSome)
          && r.any (fun c => hexVal c ≠ some 0)
    | '0' :: 'X' :: r =>
        !r.isEmpty && r.all (fun c => (hexVal c).isSome)
          && r.any (fun c => hexVal c ≠ some 0)
    | _ =>
        let p : Bool × List Char :=
          match t with
          | '-' :: r => (true, r)
          | '+' :: r => (false, r)
          | _ => (false, t)
        match parseJsDecimal p.2 with
        | some q => !p.1 && decide (0 < q.num)
        | none => false

/-- Model of the comparison `x > 0` at server.js 182, where `x` is the
    value of the `length` property (or `undefined`). -/
def jsGtZero : Option JsonVal → Bool
  | none => false
  | some .null => false
  | some (.bool b) => b
  | some (.num q) => decide (0 < q.num)
  | some (.str s) => jsStrGtZero s
  | some (.arr l) => jsStrGtZero (arrDisplay l)
  | some (.obj _) => false

/-- The `length` property of a JSON value, `none` when absent: strings
    and arrays carry their character/element count, objects whatever
    entry they store under "length". -/
def jsLengthProp : JsonVal → Option JsonVal
  | .str s => some (.num (mkRat s.length 1))
  | .arr l => some (.num (mkRat l.length 1))
  | .obj kvs => lookupLast kvs "length"
  | _ => none

/-! ### Data model

The SQLite table (server.js 19-32), the request/response shapes, and the
environment.  Times are carried as naturals: `created_at` is the insertion
instant whose `DATETIME` text SQLite orders chronologically. -/

/-- Row of the `orders` table. -/
structure Row where
  id : Nat
  business_id : String
  order_number : String
  customer_name : String
  customer_phone : String
  items : String
  special_instructions : String
  total : Rat
  status : String
  created_at : Nat
deriving DecidableEq

/-- Database state: the rows plus the next auto-increment id. -/
structure Store where
  rows : List Row
  nextId : Nat
deriving DecidableEq

/-- Response delivered by the `fetch` oracle. -/
structure FetchResp where
  ok : Bool
  body : String
deriving DecidableEq

/-- Outbound HTTP POST issued through `fetch`. -/
structure NetCall where
  url : String
  body : String
deriving DecidableEq

/-- Environment: configuration values, the `fetch` oracle (an exception
    is an `.error`), and the locale rendering of the wall clock used by
    `toLocaleTimeString()`. -/
structure Env where
  printMethod : Option String
  printnodeApiKey : Option String
  printerIds : Option String
  printWebhooks : Option String
  fetchOracle : NetCall → Except String FetchResp
  localeTime : Nat → String

/-- Body of `POST /api/orders`.  The scalar fields are strings or absent;
    `items` may be any JSON value (the code branches on its runtime type),
    and `total` is a number or absent, as in the §3 data model. -/
structure Payload where
  businessId : Option String
  customerName : Option String
  customerPhone : Option String
  items : Option JsonVal
  specialInstructions : Option String
  total : Option Rat

/-- Order object built by the intake handler (the literal at server.js
    79-89).  Note the literal has no `status` key. -/
structure COrder where
  id : Nat
  orderNumber : String
  businessId : String
  customerName : String
  customerPhone : String
  items : JsonVal
  specialInstructions : String
  total : Rat
  createdAt : String

/-- Element of the `GET /api/orders` response: the spread of a row with
    `items` replaced by its parse (server.js 123-126), so the keys are the
    snake_case column names. -/
structure FOrder where
  id : Nat
  business_id : String
  order_number : String
  customer_name : String
  customer_phone : String
  items : JsonVal
  special_instructions : String
  total : Rat
  status : String
  created_at : Nat

/-- Result of `POST /api/orders`: the success JSON or a 500 failure. -/
inductive PostResp where
  | success : COrder → PostResp
  | failure : String → PostResp

/-- JSON object serialized for the created order in the success response
    (`created_at` is carried as its numeric model). -/
def COrder.toJson (o : COrder) : JsonVal :=
  .obj [("id", .num (mkRat o.id 1)), ("orderNumber", .str o.orderNumber),
        ("businessId", .str o.businessId), ("customerName", .str o.customerName),
        ("customerPhone", .str o.customerPhone), ("items", o.items),
        ("specialInstructions", .str o.specialInstructions),
        ("total", .num o.total), ("createdAt", .str o.createdAt)]

/-- JSON object serialized for one element of the `GET /api/orders`
    response (`created_at` is carried as its numeric model). -/
def FOrder.toJson (o : FOrder) : JsonVal :=
  .obj [("id", .num (mkRat o.id 1)), ("business_id", .str o.business_id),
        ("order_number", .str o.order_number), ("customer_name", .str o.customer_name),
        ("customer_phone", .str o.customer_phone), ("items", o.items),
        ("special_instructions", .str o.special_instructions), ("total", .num o.total),
        ("status", .str o.status), ("created_at", .num (mkRat o.created_at 1))]

/-! ### Gregorian rendering of `toISOString` -/

/-- Two-digit zero-padded decimal. -/
def pad2Str (n : Nat) : String :=
  String.mk [Nat.digitChar (n / 10 % 10), Nat.digitChar (n % 10)]

/-- Three-digit zero-padded decimal. -/
def pad3Str (n : Nat) : String :=
  String.mk [Nat.digitChar (n / 100 % 10), Nat.digitChar (n / 10 % 10), Nat.digitChar (n % 10)]

/-- Four-digit zero-padded decimal. -/
def pad4Str (n : Nat) : String :=
  String.mk [Nat.digitChar (n / 1000 % 10), Nat.digitChar (n / 100 % 10),
             Nat.digitChar (n / 10 % 10), Nat.digitChar (n % 10)]

/-- Gregorian civil date from days since 1970-01-01 (Hinnant's
    `civil_from_days`, restricted to non-negative day counts, which covers
    every reachable timestamp). -/
def civilFromDays (days : Nat) : Nat × Nat × Nat :=
  let z := days + 719468
  let era := z / 146097
  let doe := z % 146097
  let yoe := (doe - doe / 1460 + doe / 36524 - doe / 146096) / 365
  let y := yoe + era * 400
  let doy := doe - (365 * yoe + yoe / 4 - yoe / 100)
  let mp := (5 * doy + 2) / 153
  let d := doy - (153 * mp + 2) / 5 + 1
  let m := if mp < 10 then mp + 3 else mp - 9
  (if m ≤ 2 then y + 1 else y, m, d)

/-- Model of `Date.prototype.toISOString` on a millisecond timestamp. -/
def isoOfMs (ms : Nat) : String :=
  let c := civilFromDays (ms / 86400000)
  let msOfDay := ms % 86400000
  pad4Str c.1 ++ "-" ++ pad2Str c.2.1 ++ "-" ++ pad2Str c.2.2 ++ "T"
    ++ pad2Str (msOfDay / 3600000) ++ ":" ++ pad2Str (msOfDay % 3600000 / 60000)
    ++ ":" ++ pad2Str (msOfDay % 60000 / 1000) ++ "." ++ pad3Str (msOfDay % 1000) ++ "Z"

/-! ### Ticket formatter (server.js 167-204) -/

/-- Banner line of 32 `=` characters. -/
def bannerEq : String := String.mk (List.replicate 32 '=')

/-- Separator line of 32 `-` characters. -/
def bannerDash : String := String.mk (List.replicate 32 '-')

/-- Guard `item.modifications && item.modifications.length > 0` followed
    by `forEach` (server.js 182-186): the modification values to iterate,
    `none` when the guard is falsy (`modifications` absent or falsy, or
    its `length` not coercing above zero), and `.error` when the
    JavaScript would throw — `forEach` called on a truthy non-array whose
    `length` coerces to a positive number, such as a nonempty string or
    an object with `length: "5"`, `length: true` or `length: [5]`. -/
def modsToIterate : Option JsonVal → Except String (Option (List JsonVal))
  | none => .ok none
  | some m =>
      if m.truthy = false then .ok none
      else if jsGtZero (jsLengthProp m) = false then .ok none
      else
        match m with
        | .arr l => .ok (some l)
        | _ => .error "item.modifications.forEach is not a function"

/-- Lines pushed by the per-item loop (server.js 180-187), with the
    property accesses evaluated in source order: `item.quantity` and
    `item.name` for the pushed line, then the modifications guard; a
    `TypeError` from any access (a `null` item) propagates. -/
def itemLines : List JsonVal → Except String (List String)
  | [] => .ok []
  | item :: rest =>
      match jsGet item "quantity" with
      | .error e => .error e
      | .ok q =>
          match jsGet item "name" with
          | .error e => .error e
          | .ok nm =>
              match jsGet item "modifications" with
              | .error e => .error e
              | .ok mods =>
                  match modsToIterate mods with
                  | .error e => .error e
                  | .ok miter =>
                      (match itemLines rest with
                       | .error e => .error e
                       | .ok ls =>
                           .ok ((jsDisplayOpt q ++ "x " ++ jsDisplayOpt nm)
                             :: ((match miter with
                                  | none => []
                                  | some l => l.map fun m => "   - " ++ jsDisplay m)
                                 ++ ls)))

/-- Line list built by `formatKitchenTicket`, with the wall-clock
    rendering `timeStr` made an explicit argument.  The `.error` results
    model the exceptions the JavaScript throws (e.g. `forEach` on a
    non-array `items`). -/
def ticketLines (o : COrder) (timeStr : String) : Except String (List String) :=
  match o.items with
  | .arr l =>
      (match itemLines l with
       | .error e => .error e
       | .ok ils =>
           .ok ([bannerEq,
                 "ORDER " ++ o.orderNumber ++ "     " ++ timeStr,
                 bannerEq,
                 "",
                 "Customer: " ++ o.customerName]
             ++ (if o.customerPhone ≠ "" then ["Phone: " ++ o.customerPhone] else [])
             ++ ["", bannerDash]
             ++ ils
             ++ [bannerDash]
             ++ (if o.specialInstructions ≠ "" then
                  ["", "Special Instructions:", o.specialInstructions] else [])
             ++ ["", "TOTAL: $" ++ toFixed2 o.total, bannerEq, "", ""]))
  | _ => .error "order.items.forEach is not a function"

/-- Model of `formatKitchenTicket`: the pushed lines joined by newlines. -/
def formatKitchenTicket (o : COrder) (timeStr : String) : Except String String :=
  (ticketLines o timeStr).map (String.intercalate "\n")

/-! ### Print dispatch (server.js 143-165, 206-263) -/

/-- Base64 alphabet. -/
def b64Idx (n : Nat) : Char :=
  "ABCDEFGHIJKLMNOPQRSTUVWXYZabcdefghijklmnopqrstuvwxyz0123456789+/".data.getD n '?'

/-- Base64 of a byte list. -/
def base64Go : List Nat → List Char
  | [] => []
  | [a] => [b64Idx (a / 4), b64Idx (a % 4 * 16), '=', '=']
  | [a, b] => [b64Idx (a / 4), b64Idx (a % 4 * 16 + b / 16), b64Idx (b % 16 * 4), '=']
  | a :: b :: c :: rest =>
      [b64Idx (a / 4), b64Idx (a % 4 * 16 + b / 16),
       b64Idx (b % 16 * 4 + c / 64), b64Idx (c % 64)] ++ base64Go rest

/-- Base64 of a string (tickets in scope are ASCII, so code points are
    bytes). -/
def base64OfString (s : String) : String :=
  String.mk (base64Go (s.data.map Char.toNat))

/-- JavaScript `parseInt` on a string: optional sign and leading decimal
    digits after whitespace; `none` models `NaN`. -/
def jsParseIntStr (s : String) : Option Int :=
  let t := skipWs s.data
  let p : Bool × List Char :=
    match t with
    | '-' :: r => (true, r)
    | '+' :: r => (false, r)
    | _ => (false, t)
  match digitSpan p.2 with
  | ([], _) => none
  | (ds, _) => some ((if p.1 then -1 else 1) * (digitsToNat ds : Int))

/-- Body of the PrintNode job submission (server.js 231-237);
    `JSON.stringify` renders `NaN` (a non-numeric printer id) as `null`. -/
def printNodeBody (pid : JsonVal) (content : String) : String :=
  stringifyVal (.obj
    [("printerId",
      match jsParseIntStr (jsDisplay pid) with
      | some i => .num (mkRat i 1)
      | none => .null),
     ("title", .str "Kitchen Order"),
     ("contentType", .str "raw_base64"),
     ("content", .str (base64OfString content)),
     ("source", .str "Phone Order System")])

/-- Model of `printViaPrintNode` (server.js 206-246): the outbound calls
    made and the exception thrown, if any.  A missing key, a missing or
    falsy printer id, and a non-ok response are logged only; an exception
    (malformed `PRINTER_IDS` JSON, or a property access on a parsed
    `null`) is reported for `printOrder`'s catch to swallow. -/
def printViaPrintNode (env : Env) (bid : String) (content : String) :
    List NetCall × Option String :=
  if strTruthy env.printnodeApiKey = false then ([], none)
  else
    match parseJson (jsOrDefault env.printerIds "\x7b\x7d") with
    | none => ([], some jsonParseErrMsg)
    | some ids =>
        match jsGet ids bid with
        | .error e => ([], some e)
        | .ok none => ([], none)
        | .ok (some pid) =>
            if pid.truthy = false then ([], none)
            else
              let call : NetCall :=
                { url := "https://api.printnode.com/printjobs",
                  body := printNodeBody pid content }
              match env.fetchOracle call with
              | .error e => ([call], some e)
              | .ok _ => ([call], none)

/-- Model of `printViaWebhook` (server.js 252-263): fire-and-forget POST
    of `{content, businessId}` to the per-business URL, if configured. -/
def printViaWebhook (env : Env) (bid : String) (content : String) :
    List NetCall × Option String :=
  match parseJson (jsOrDefault env.printWebhooks "\x7b\x7d") with
  | none => ([], some jsonParseErrMsg)
  | some m =>
      match jsGet m bid with
      | .error e => ([], some e)
      | .ok none => ([], none)
      | .ok (some u) =>
          if u.truthy = false then ([], none)
          else
            let call : NetCall :=
              { url := jsDisplay u,
                body := stringifyVal (.obj [("content", .str content),
                                            ("businessId", .str bid)]) }
            match env.fetchOracle call with
            | .error e => ([call], some e)
            | .ok _ => ([call], none)

/-- Model of `printOrder` (server.js 143-165).  The ticket is formatted
    *outside* the `try`, so a formatting exception escapes to the caller;
    exceptions of the selected channel are caught and logged, leaving
    only the outbound calls observable. -/
def printOrder (env : Env) (bid : String) (order : COrder) (timeStr : String) :
    Except String (List NetCall) :=
  if strTruthy env.printMethod = false then .ok []
  else
    match formatKitchenTicket order timeStr with
    | .error e => .error e
    | .ok ticket =>
        let pm := jsOrDefault env.printMethod ""
        let r :=
          if pm = "printnode" then printViaPrintNode env bid ticket
          else if pm = "cloudprnt" then ([], none)
          else if pm = "webhook" then printViaWebhook env bid ticket
          else ([], none)
        .ok r.1

/-! ### HTTP handlers -/

/-- Fallback line item built when the items string fails to parse
    (server.js 54): the whole string becomes the name of one item. -/
def wrapItemsString (s : String) : JsonVal :=
  .arr [.obj [("name", .str s), ("quantity", .num 1), ("modifications", .arr [])]]

/-- Items normalization of the intake handler (server.js 47-58): a string
    is `JSON.parse`d, with the single-line-item fallback on parse failure;
    any other value passes through; an absent field stays absent. -/
def parsedItemsOf : Option JsonVal → Option JsonVal
  | none => none
  | some (.str s) =>
      (match parseJson s with
       | some v => some v
       | none => some (wrapItemsString s))
  | some v => some v

/-- Error message of the insert when `items` was absent:
    `JSON.stringify(undefined)` is `undefined`, which better-sqlite3
    refuses to bind. -/
def bindErrMsg : String :=
  "TypeError: SQLite3 can only bind numbers, strings, bigints, buffers, and null"

/-- Row inserted by the intake handler (server.js 64-77), with the §3
    defaults applied and `items` serialized; `status` and `created_at`
    come from the column defaults. -/
def mkRow (now : Nat) (st : Store) (p : Payload) (itemsVal : JsonVal) : Row :=
  { id := st.nextId,
    business_id := jsOrDefault p.businessId "default",
    order_number := orderNumberOf now,
    customer_name := jsOrDefault p.customerName "Guest",
    customer_phone := jsOrDefault p.customerPhone "",
    items := stringifyVal itemsVal,
    special_instructions := jsOrDefault p.specialInstructions "",
    total := ratOrDefault p.total,
    status := "new",
    created_at := now }

/-- Response order object literal (server.js 79-89); it has no status. -/
def mkOrder (now : Nat) (st : Store) (p : Payload) (itemsVal : JsonVal) : COrder :=
  { id := st.nextId,
    orderNumber := orderNumberOf now,
    businessId := jsOrDefault p.businessId "default",
    customerName := jsOrDefault p.customerName "Guest",
    customerPhone := jsOrDefault p.customerPhone "",
    items := itemsVal,
    specialInstructions := jsOrDefault p.specialInstructions "",
    total := ratOrDefault p.total,
    createdAt := isoOfMs now }

/-- Model of the `POST /api/orders` handler (server.js 41-99): normalize
    items, generate the order number, insert the row, build the response
    order object, dispatch printing (whose thrown exceptions reach the
    handler's catch and produce a 500 even though the row stays
    inserted), and answer. -/
def handlePost (env : Env) (now : Nat) (st : Store) (p : Payload) :
    Store × PostResp × List NetCall :=
  match parsedItemsOf p.items with
  | none => (st, .failure bindErrMsg, [])
  | some itemsVal =>
      let st' : Store := { rows := st.rows ++ [mkRow now st p itemsVal],
                           nextId := st.nextId + 1 }
      match printOrder env (mkRow now st p itemsVal).business_id
              (mkOrder now st p itemsVal) (env.localeTime now) with
      | .error e => (st', .failure e, [])
      | .ok calls => (st', .success (mkOrder now st p itemsVal), calls)

/-- WHERE clause of `GET /api/orders` (server.js 105-116): a filter is
    applied only when the query parameter is truthy. -/
def rowMatches (bid status : Option String) (r : Row) : Bool :=
  (match bid with
   | some s => if s = "" then true else r.business_id = s
   | none => true)
  && (match status with
      | some s => if s = "" then true else r.status = s
      | none => true)

/-- Row selection of `GET /api/orders` (server.js 105-120): WHERE filter,
    ORDER BY `created_at` DESC, LIMIT 100.  SQLite leaves the relative
    order of equal timestamps unspecified; the stable insertion sort is
    one compliant realization. -/
def selectRows (st : Store) (bid status : Option String) : List Row :=
  (List.insertionSort (fun a b => b.created_at ≤ a.created_at)
    (st.rows.filter (rowMatches bid status))).take 100

/-- Formatting loop of `GET /api/orders` (server.js 123-126): each row is
    spread with `items` parsed; a parse failure throws out of the whole
    request. -/
def formatRows : List Row → Except String (List FOrder)
  | [] => .ok []
  | r :: rest =>
      match parseJson r.items with
      | none => .error jsonParseErrMsg
      | some v =>
          (match formatRows rest with
           | .error e => .error e
           | .ok l =>
               .ok ({ id := r.id, business_id := r.business_id,
                      order_number := r.order_number,
                      customer_name := r.customer_name,
                      customer_phone := r.customer_phone,
                      items := v,
                      special_instructions := r.special_instructions,
                      total := r.total, status := r.status,
                      created_at := r.created_at } :: l))

/-- Model of the `GET /api/orders` handler (server.js 102-129).  An
    `.error` result models the uncaught `JSON.parse` exception, answered
    by Express as a 500 with no JSON body. -/
def handleGet (st : Store) (bid status : Option String) : Except String (List FOrder) :=
  formatRows (selectRows st bid status)

/-- Model of the `PATCH /api/orders/:id` handler (server.js 132-140):
    unconditional UPDATE of the status column, unconditional
    `{success: true}` response.  (The textual `:id` parameter is carried
    as the integer SQLite compares it to under type affinity.) -/
def handlePatch (st : Store) (id : Nat) (status : String) : Store × Bool :=
  ({ st with rows := st.rows.map fun r =>
      if r.id = id then { r with status := status } else r }, true)

/-! ### Well-formedness of line items

`goodItem` records exactly the condition under which one iteration of
the item loop cannot throw — the item is not `null` and its
modifications value cannot trip the guard; `goodItems` additionally
requires the items value to be an array, so that `forEach` exists. -/

/-- The modifications guard (server.js 182-186) cannot throw on this
    value: either the guard is falsy, or the value is a genuine array. -/
def goodMods : Option JsonVal → Bool
  | none => true
  | some m =>
      if m.truthy = false then true
      else if jsGtZero (jsLengthProp m) = false then true
      else
        match m with
        | .arr _ => true
        | _ => false

/-- The item's iteration of the loop body cannot throw: the item is not
    `null` (whose property accesses throw), and for an object item the
    stored modifications value passes `goodMods`.  Non-object items have
    `undefined` properties, which print but never throw. -/
def goodItem : JsonVal → Bool
  | .null => false
  | .obj kvs => goodMods (lookupLast kvs "modifications")
  | _ => true

/-- The items value can be formatted without a thrown exception. -/
def goodItems : JsonVal → Bool
  | .arr l => l.all goodItem
  | _ => false

/-! ### Projections used to state concrete counterexamples -/

/-- Items field of the order in a success response. -/
def respItems : PostResp → Option JsonVal
  | .success o => some o.items
  | .failure _ => none

/-- Field access on the serialized response order: `none` when the
    response is a failure, `some (.ok none)` when the key is absent from
    the order object. -/
def respOrderField (r : PostResp) (k : String) :
    Option (Except String (Option JsonVal)) :=
  match r with
  | .success o => some (jsGet (COrder.toJson o) k)
  | .failure _ => none

/-- Field access on the first serialized order of a `GET /api/orders`
    response. -/
def headOrderField (e : Except String (List FOrder)) (k : String) :
    Option (Except String (Option JsonVal)) :=
  match e with
  | .ok (o :: _) => some (jsGet (FOrder.toJson o) k)
  | _ => none

/-- The `business_id` of the first order of a `GET /api/orders` response. -/
def headBizId (e : Except String (List FOrder)) : Option String :=
  match e with
  | .ok (o :: _) => some o.business_id
  | _ => none

/-! ### Order instances for the sort relation -/

instance : IsTotal Row (fun a b => b.created_at ≤ a.created_at) :=
  ⟨fun a b => Nat.le_total b.created_at a.created_at⟩

instance : IsTrans Row (fun a b => b.created_at ≤ a.created_at) :=
  ⟨fun _ _ _ h1 h2 => Nat.le_trans h2 h1⟩

deriving instance DecidableEq for Except

/-! ### Concrete fixtures used by witnesses and counterexamples -/

/-- Environment with no print method configured. -/
def envNoPrint : Env :=
  { printMethod := none, printnodeApiKey := none, printerIds := none,
    printWebhooks := none,
    fetchOracle := fun _ => .ok { ok := true, body := "" },
    localeTime := fun _ => "10:00:00 AM" }

/-- Empty database. -/
def store0 : Store := { rows := [], nextId := 1 }

/-- The Burger line item of the §8 example payload. -/
def aliceItem : JsonVal :=
  .obj [("name", .str "Burger"), ("quantity", .num 2),
        ("modifications", .arr [.str "no onions"])]

/-- Items of the §8 example payload. -/
def aliceItems : JsonVal := .arr [aliceItem]

/-- The §8 example payload. -/
def alicePayload : Payload :=
  { businessId := none, customerName := some "Alice", customerPhone := none,
    items := some aliceItems, specialInstructions := none,
    total := some (mkRat 31 2) }

/-- Payload whose items is the string "42": valid JSON, but not
    structured data. -/
def str42Payload : Payload :=
  { businessId := none, customerName := none, customerPhone := none,
    items := some (.str "42"), specialInstructions := none, total := none }

/-- Payload whose items is a string that is not valid JSON. -/
def breadPayload : Payload :=
  { businessId := none, customerName := none, customerPhone := none,
    items := some (.str "Extra breadsticks"), specialInstructions := none,
    total := none }

/-- A stored row with well-formed items text. -/
def rowPizza : Row :=
  { id := 1, business_id := "pizza-place", order_number := "#678901",
    customer_name := "Alice", customer_phone := "", items := "[]",
    special_instructions := "", total := 0, status := "new",
    created_at := 1712345678 }

/-- Store holding `rowPizza`. -/
def storeOne : Store := { rows := [rowPizza], nextId := 2 }

/-- A stored row whose persisted items text is not valid JSON. -/
def rowBad : Row :=
  { id := 1, business_id := "pizza-place", order_number := "#678901",
    customer_name := "Alice", customer_phone := "", items := "not json",
    special_instructions := "", total := 0, status := "new",
    created_at := 1712345678 }

/-- Store holding `rowBad`. -/
def storeBad : Store := { rows := [rowBad], nextId := 2 }

/-- The formatted order the read path produces for `rowPizza`. -/
def fOrderPizza : FOrder :=
  { id := 1, business_id := "pizza-place", order_number := "#678901",
    customer_name := "Alice", customer_phone := "", items := .arr [],
    special_instructions := "", total := 0, status := "new",
    created_at := 1712345678 }

/-- A concrete created order, as the intake handler builds it for the §8
    example payload. -/
def aliceCOrder : COrder :=
  { id := 1, orderNumber := "#678901", businessId := "default",
    customerName := "Alice", customerPhone := "", items := aliceItems,
    specialInstructions := "", total := mkRat 31 2,
    createdAt := isoOfMs 1712345678901 }

theorem digitsGo_eq_w : ∀ f n, n ≤ f → digitsGo (f + 1) n = decDigitsRevW n := by
  intro f
  induction f with
  | zero =>
    intro n hn
    interval_cases n
    simp [digitsGo, decDigitsRevW]
  | succ f ih =>
    intro n hn
    by_cases h : n < 10
    · simp [digitsGo, h, decDigitsRevW]
    · have hdiv : n / 10 ≤ f := by
        have h1 : 1 ≤ n / 10 := (Nat.one_le_div_iff (by omega)).mpr (by omega)
        have h2 : 10 * (n / 10) + n % 10 = n := Nat.div_add_mod n 10
        omega
      have hrec : digitsGo (f + 1) (n / 10) = decDigitsRevW (n / 10) := ih (n / 10) hdiv
      have hstep : digitsGo (f + 1 + 1) n = n % 10 :: digitsGo (f + 1) (n / 10) := by
        conv_lhs => rw [digitsGo]
        rw [if_neg h]
      rw [hstep, hrec]
      conv_rhs => rw [decDigitsRevW]
      rw [dif_neg h]

theorem decDigitsRev_eq_w (n : Nat) : decDigitsRev n = decDigitsRevW n :=
  digitsGo_eq_w n n (Nat.le_refl n)

theorem length_padDigitsRev : ∀ k b, (padDigitsRev k b).length = k := by
  intro k
  induction k with
  | zero => intro b; rfl
  | succ k ih => intro b; simp [padDigitsRev, ih]

theorem decDigitsRevW_split :
    ∀ k a b, 1 ≤ a → b < 10 ^ k →
      decDigitsRevW (a * 10 ^ k + b) = padDigitsRev k b ++ decDigitsRevW a := by
  intro k
  induction k with
  | zero =>
    intro a b _ hb
    interval_cases b
    simp [padDigitsRev]
  | succ k ih =>
    intro a b ha hb
    have hge : ¬ a * 10 ^ (k + 1) + b < 10 := by
      have : 10 ^ (k + 1) ≥ 10 := by
        calc 10 ^ (k + 1) ≥ 10 ^ 1 := Nat.pow_le_pow_right (by omega) (by omega)
        _ = 10 := by norm_num
      nlinarith
    have hmod : (a * 10 ^ (k + 1) + b) % 10 = b % 10 := by
      have : a * 10 ^ (k + 1) + b = b + a * 10 ^ k * 10 := by ring
      rw [this, Nat.add_mul_mod_self_right]
    have hdiv : (a * 10 ^ (k + 1) + b) / 10 = a * 10 ^ k + b / 10 := by
      have : a * 10 ^ (k + 1) + b = b + a * 10 ^ k * 10 := by ring
      rw [this, Nat.add_mul_div_right _ _ (by omega : (0:Nat) < 10)]
      omega
    rw [decDigitsRevW]
    rw [dif_neg hge, hmod, hdiv,
      ih a (b / 10) ha (by
        have hb' : b < 10 ^ k * 10 := by rw [pow_succ] at hb; omega
        exact (Nat.div_lt_iff_lt_mul (by omega)).mpr hb')]
    rfl

theorem decDigitsRevW_pad :
    ∀ k b, 10 ^ k ≤ b → b < 10 ^ (k + 1) →
      decDigitsRevW b = padDigitsRev (k + 1) b := by
  intro k
  induction k with
  | zero =>
    intro b hb1 hb2
    simp only [zero_add, pow_one] at hb2
    rw [decDigitsRevW, dif_pos hb2]
    have hpad : padDigitsRev (0 + 1) b = [b % 10] := rfl
    rw [hpad, Nat.mod_eq_of_lt hb2]
  | succ k ih =>
    intro b hb1 hb2
    have hge : ¬ b < 10 := by
      have : 10 ^ (k + 1) ≥ 10 := by
        calc 10 ^ (k + 1) ≥ 10 ^ 1 := Nat.pow_le_pow_right (by omega) (by omega)
        _ = 10 := by norm_num
      omega
    rw [decDigitsRevW, dif_neg hge]
    have hd1 : 10 ^ k ≤ b / 10 := by
      rw [Nat.le_div_iff_mul_le (by omega : (0:Nat) < 10)]
      rw [pow_succ] at hb1; omega
    have hd2 : b / 10 < 10 ^ (k + 1) := by
      rw [Nat.div_lt_iff_lt_mul (by omega : (0:Nat) < 10)]
      rw [pow_succ] at hb2; omega
    rw [ih (b / 10) hd1 hd2]
    rfl

theorem sliceLastSix_jsNatStr (now : Nat) (h : 100000 ≤ now) :
    sliceLastSix (jsNatStr now) = lastSixTimestampDigits now := by
  unfold sliceLastSix jsNatStr lastSixTimestampDigits
  rw [decDigitsRev_eq_w]
  rcases lt_or_ge now 1000000 with h6 | h6
  · have hpad : decDigitsRevW now = padDigitsRev 6 now := by
      have e1 : (10 : Nat) ^ 5 = 100000 := by norm_num
      have e2 : (10 : Nat) ^ (5 + 1) = 1000000 := by norm_num
      have h5 : (10 : Nat) ^ 5 ≤ now := by omega
      have h5' : now < 10 ^ (5 + 1) := by omega
      simpa using decDigitsRevW_pad 5 now h5 h5'
    have hmod : now % 1000000 = now := Nat.mod_eq_of_lt h6
    rw [hpad, hmod]
    simp [length_padDigitsRev]
  · have ha : 1 ≤ now / 1000000 := (Nat.one_le_div_iff (by norm_num)).mpr h6
    have e6 : (10 : Nat) ^ 6 = 1000000 := by norm_num
    have hb : now % 1000000 < 10 ^ 6 := by
      have hb' : now % 1000000 < 1000000 := Nat.mod_lt _ (by norm_num)
      omega
    have hn : now = now / 1000000 * 10 ^ 6 + now % 1000000 := by
      have := Nat.div_add_mod now 1000000
      omega
    have hsplit : decDigitsRevW now
        = padDigitsRev 6 (now % 1000000) ++ decDigitsRevW (now / 1000000) := by
      conv_lhs => rw [hn]
      exact decDigitsRevW_split 6 (now / 1000000) (now % 1000000) ha hb
    rw [hsplit, List.reverse_append, List.map_append]
    congr 1
    rw [List.length_append]
    have hlenB : ((padDigitsRev 6 (now % 1000000)).reverse.map Nat.digitChar).length = 6 := by
      simp [length_padDigitsRev]
    rw [hlenB, Nat.add_sub_cancel]
    have hd := List.drop_left ((decDigitsRevW (now / 1000000)).reverse.map Nat.digitChar)
      ((padDigitsRev 6 (now % 1000000)).reverse.map Nat.digitChar)
    show List.drop _ (_ ++ _) = _
    simp only [List.length_map, List.length_reverse] at hd ⊢
    exact hd

theorem length_lastSixTimestampDigits (now : Nat) :
    (lastSixTimestampDigits now).length = 6 := by
  unfold lastSixTimestampDigits
  show ((padDigitsRev 6 (now % 1000000)).reverse.map Nat.digitChar).length = 6
  simp [length_padDigitsRev]

theorem handlePost_success_spec (env : Env) (now : Nat) (st : Store) (p : Payload)
    (o : COrder) (c : List NetCall)
    (h : (handlePost env now st p).2 = (.success o, c)) :
    ∃ itemsVal, parsedItemsOf p.items = some itemsVal ∧
      o = mkOrder now st p itemsVal ∧
      (handlePost env now st p).1.rows = st.rows ++ [mkRow now st p itemsVal] := by
  unfold handlePost at h ⊢
  cases hpi : parsedItemsOf p.items with
  | none => rw [hpi] at h; simp at h
  | some v =>
      rw [hpi] at h
      dsimp only at h ⊢
      cases hpo : printOrder env (mkRow now st p v).business_id
          (mkOrder now st p v) (env.localeTime now) with
      | error e => rw [hpo] at h; simp at h
      | ok calls =>
          rw [hpo] at h
          simp only [Prod.mk.injEq, PostResp.success.injEq] at h
          exact ⟨v, rfl, h.1.symm, rfl⟩

theorem modsToIterate_ok (m : Option JsonVal) (h : goodMods m = true) :
    ∃ r, modsToIterate m = .ok r := by
  cases m with
  | none => exact ⟨none, rfl⟩
  | some v =>
      unfold goodMods at h
      unfold modsToIterate
      dsimp only at h ⊢
      by_cases h1 : v.truthy = false
      · rw [if_pos h1]
        exact ⟨none, rfl⟩
      · rw [if_neg h1] at h ⊢
        by_cases h2 : jsGtZero (jsLengthProp v) = false
        · rw [if_pos h2]
          exact ⟨none, rfl⟩
        · rw [if_neg h2] at h ⊢
          cases v with
          | arr l => exact ⟨some l, rfl⟩
          | null => simp at h
          | bool b => simp at h
          | num q => simp at h
          | str s => simp at h
          | obj kvs => simp at h

theorem itemLines_ok (l : List JsonVal) (h : l.all goodItem = true) :
    ∃ ls, itemLines l = .ok ls := by
  induction l with
  | nil => exact ⟨[], rfl⟩
  | cons a rest ih =>
      rw [List.all_cons, Bool.and_eq_true] at h
      obtain ⟨ls, hls⟩ := ih h.2
      have ha := h.1
      cases a with
      | null => simp [goodItem] at ha
      | obj kvs =>
          have hmods : goodMods (lookupLast kvs "modifications") = true := by
            simpa [goodItem] using ha
          obtain ⟨r, hr⟩ := modsToIterate_ok _ hmods
          simp only [itemLines, jsGet, hr, hls]
          exact ⟨_, rfl⟩
      | bool b =>
          obtain ⟨r, hr⟩ := modsToIterate_ok none rfl
          simp only [itemLines, jsGet, hr, hls]
          exact ⟨_, rfl⟩
      | num q =>
          obtain ⟨r, hr⟩ := modsToIterate_ok none rfl
          simp only [itemLines, jsGet, hr, hls]
          exact ⟨_, rfl⟩
      | str s =>
          have hq : jsGet (.str s) "quantity" = .ok none := rfl
          have hn : jsGet (.str s) "name" = .ok none := rfl
          have hm : jsGet (.str s) "modifications" = .ok none := rfl
          have hmt : modsToIterate none = .ok none := rfl
          simp only [itemLines, hq, hn, hm, hmt, hls]
          exact ⟨_, rfl⟩
      | arr l2 =>
          have hq : jsGet (.arr l2) "quantity" = .ok none := rfl
          have hn : jsGet (.arr l2) "name" = .ok none := rfl
          have hm : jsGet (.arr l2) "modifications" = .ok none := rfl
          have hmt : modsToIterate none = .ok none := rfl
          simp only [itemLines, hq, hn, hm, hmt, hls]
          exact ⟨_, rfl⟩

theorem ticketLines_ok (o : COrder) (ts : String) (h : goodItems o.items = true) :
    ∃ ls, ticketLines o ts = .ok ls := by
  unfold goodItems at h
  cases hv : o.items with
  | arr l =>
      rw [hv] at h
      dsimp only at h
      obtain ⟨ls, hls⟩ := itemLines_ok l h
      simp only [ticketLines, hv, hls]
      exact ⟨_, rfl⟩
  | null => rw [hv] at h; simp at h
  | bool b => rw [hv] at h; simp at h
  | num q => rw [hv] at h; simp at h
  | str s => rw [hv] at h; simp at h
  | obj kvs => rw [hv] at h; simp at h

theorem printOrder_ok_of_good (env : Env) (bid : String) (o : COrder) (ts : String)
    (h : goodItems o.items = true) :
    ∃ calls, printOrder env bid o ts = .ok calls := by
  unfold printOrder
  cases hpm : strTruthy env.printMethod with
  | false => exact ⟨[], by simp⟩
  | true =>
      obtain ⟨ls, hls⟩ := ticketLines_ok o ts h
      have hfmt : formatKitchenTicket o ts = .ok (String.intercalate "\n" ls) := by
        unfold formatKitchenTicket
        rw [hls]
        rfl
      rw [hfmt]
      simp only [Bool.true_eq_false, if_false]
      exact ⟨_, rfl⟩

theorem handlePost_success_of_good (env : Env) (now : Nat) (st : Store) (p : Payload)
    (itemsVal : JsonVal) (hi : parsedItemsOf p.items = some itemsVal)
    (hg : goodItems itemsVal = true) :
    (handlePost env now st p).2.1 = .success (mkOrder now st p itemsVal) ∧
    (handlePost env now st p).1.rows = st.rows ++ [mkRow now st p itemsVal] := by
  unfold handlePost
  rw [hi]
  dsimp only
  obtain ⟨calls, hc⟩ := printOrder_ok_of_good env (mkRow now st p itemsVal).business_id
    (mkOrder now st p itemsVal) (env.localeTime now) hg
  rw [hc]
  exact ⟨rfl, rfl⟩

/-! ### Claim C1 -/

/-- C9: with no `PRINT_METHOD` configured, every create request whose
    insert succeeds is answered with success and no outbound network call
    is made: dispatch returns before contacting any channel. -/
theorem claim9_no_method_no_call (env : Env) (now : Nat) (st : Store) (p : Payload)
    (itemsVal : JsonVal)
    (hpm : strTruthy env.printMethod = false)
    (hi : parsedItemsOf p.items = some itemsVal) :
    (handlePost env now st p).2.1 = .success (mkOrder now st p itemsVal)
    ∧ (handlePost env now st p).2.2 = [] := by
  unfold handlePost
  rw [hi]
  dsimp only
  have hp : printOrder env (mkRow now st p itemsVal).business_id
      (mkOrder now st p itemsVal) (env.localeTime now) = .ok [] := by
    unfold printOrder
    rw [hpm]
    simp
  rw [hp]
  exact ⟨rfl, rfl⟩

/-- Concrete instantiation of `claim9_no_method_no_call`. -/
theorem claim9_witness :
    strTruthy envNoPrint.printMethod = false
    ∧ parsedItemsOf alicePayload.items = some aliceItems
    ∧ ((handlePost envNoPrint 1712345678901 store0 alicePayload).2.1
         = .success (mkOrder 1712345678901 store0 alicePayload aliceItems)
       ∧ (handlePost envNoPrint 1712345678901 store0 alicePayload).2.2 = []) :=
  ⟨rfl, rfl,
    claim9_no_method_no_call envNoPrint 1712345678901 store0 alicePayload aliceItems rfl rfl⟩

/-! ### Claim C10 -/

/-- C10: for timestamps of at least six decimal digits (every reachable
    `Date.now()` value), the generated order number is the character `#`
    followed by the last six decimal digits of the creation-time
    millisecond timestamp, a seven-character string; and any two orders
    created during the same millisecond receive identical order numbers. -/
theorem claim10_order_number (now : Nat) (h : 100000 ≤ now) :
    orderNumberOf now = "#" ++ lastSixTimestampDigits now
    ∧ (orderNumberOf now).length = 7
    ∧ ∀ env₁ env₂ st₁ st₂ p₁ p₂ o₁ o₂ c₁ c₂,
        (handlePost env₁ now st₁ p₁).2 = (.success o₁, c₁) →
        (handlePost env₂ now st₂ p₂).2 = (.success o₂, c₂) →
        o₁.orderNumber = o₂.orderNumber := by
  have h1 : orderNumberOf now = "#" ++ lastSixTimestampDigits now := by
    unfold orderNumberOf
    rw [sliceLastSix_jsNatStr now h]
  refine ⟨h1, ?_, ?_⟩
  · rw [h1, String.length_append, length_lastSixTimestampDigits]
    rfl
  · intro env₁ env₂ st₁ st₂ p₁ p₂ o₁ o₂ c₁ c₂ hh1 hh2
    obtain ⟨v₁, _, ho₁, _⟩ := handlePost_success_spec _ _ _ _ _ _ hh1
    obtain ⟨v₂, _, ho₂, _⟩ := handlePost_success_spec _ _ _ _ _ _ hh2
    rw [ho₁, ho₂]
    rfl

/-- Concrete instantiation of `claim10_order_number`. -/
theorem claim10_witness :
    100000 ≤ 1712345678901
    ∧ (orderNumberOf 1712345678901 = "#" ++ lastSixTimestampDigits 1712345678901
       ∧ (orderNumberOf 1712345678901).length = 7
       ∧ ∀ env₁ env₂ st₁ st₂ p₁ p₂ o₁ o₂ c₁ c₂,
           (handlePost env₁ 1712345678901 st₁ p₁).2 = (.success o₁, c₁) →
           (handlePost env₂ 1712345678901 st₂ p₂).2 = (.success o₂, c₂) →
           o₁.orderNumber = o₂.orderNumber) :=
  ⟨by norm_num, claim10_order_number 1712345678901 (by norm_num)⟩

/-! ### Claim C2 -/

/-- C2 fails as stated: the string "42" is valid JSON but does not encode
    structured data, yet the handler does not wrap it as a line item — the
    response order's items is the number 42, not a sequence at all. -/
theorem claim2_cex :
    respItems (handlePost envNoPrint 1712345678901 store0 str42Payload).2.1
      = some (.num 42)
    ∧ some (JsonVal.num 42) ≠ some (wrapItemsString "42")
    ∧ ∀ l, JsonVal.num 42 ≠ .arr l := by
  refine ⟨rfl, ?_, ?_⟩
  · intro h
    exact JsonVal.noConfusion (Option.some.inj h)
  · intro l h
    exact JsonVal.noConfusion h

/-- C2 (amended): a string items value that is *not valid JSON* is wrapped
    as the single synthetic line item `{name, quantity: 1, modifications:
    []}`; and a structured (array) items value passes through unchanged,
    so such payloads always yield a well-formed sequence. -/
theorem claim2_amended (env : Env) (now : Nat) (st : Store) (p : Payload) :
    (∀ s, p.items = some (.str s) → parseJson s = none →
      ∀ o c, (handlePost env now st p).2 = (.success o, c) →
        o.items = wrapItemsString s)
    ∧ (∀ l, p.items = some (.arr l) →
        ∀ o c, (handlePost env now st p).2 = (.success o, c) →
          o.items = .arr l) := by
  constructor
  · intro s hs hp o c h
    obtain ⟨v, hv, ho, _⟩ := handlePost_success_spec _ _ _ _ _ _ h
    rw [hs] at hv
    unfold parsedItemsOf at hv
    dsimp only at hv
    rw [hp] at hv
    have hv' : wrapItemsString s = v := Option.some.inj hv
    rw [ho, ← hv']
    rfl
  · intro l hl o c h
    obtain ⟨v, hv, ho, _⟩ := handlePost_success_spec _ _ _ _ _ _ h
    rw [hl] at hv
    have hv' : JsonVal.arr l = v := Option.some.inj hv
    rw [ho, ← hv']
    rfl

/-- Concrete instantiation of `claim2_amended`: the items string
    "Extra breadsticks" is not valid JSON and becomes the single wrapped
    line item. -/
theorem claim2_witness :
    breadPayload.items = some (.str "Extra breadsticks")
    ∧ parseJson "Extra breadsticks" = none
    ∧ (handlePost envNoPrint 1712345678901 store0 breadPayload).2
        = (.success (mkOrder 1712345678901 store0 breadPayload
            (wrapItemsString "Extra breadsticks")), [])
    ∧ (mkOrder 1712345678901 store0 breadPayload
        (wrapItemsString "Extra breadsticks")).items
      = wrapItemsString "Extra breadsticks" :=
  ⟨rfl, rfl, rfl,
    (claim2_amended envNoPrint 1712345678901 store0 breadPayload).1
      "Extra breadsticks" rfl rfl _ _ rfl⟩

/-! ### Claim C5 -/

/-- C5 fails as stated: the success response for the §8 example payload
    contains the order, but the serialized order object has no `status`
    key at all, where the claim expects `status: "new"`. -/
theorem claim5_cex :
    respOrderField (handlePost envNoPrint 1712345678901 store0 alicePayload).2.1 "status"
      = some (.ok none)
    ∧ respOrderField (handlePost envNoPrint 1712345678901 store0 alicePayload).2.1
        "customerName" = some (.ok (some (.str "Alice"))) :=
  ⟨rfl, rfl⟩

/-- C5 (amended): for every environment and store, and every timestamp of
    at least six decimal digits, POSTing the §8 example payload yields a
    success response whose order has customerName "Alice", the single
    Burger line item with quantity 2, total 15.5, and a generated
    7-character order-number string; the serialized response order carries
    no status field, while the row inserted for it has status "new". -/
theorem claim5_amended (env : Env) (now : Nat) (st : Store) (h : 100000 ≤ now) :
    ∃ o, (handlePost env now st alicePayload).2.1 = .success o
      ∧ o.customerName = "Alice"
      ∧ o.items = .arr [aliceItem]
      ∧ jsGet aliceItem "quantity" = .ok (some (.num 2))
      ∧ o.total = 15.5
      ∧ o.orderNumber = "#" ++ lastSixTimestampDigits now
      ∧ o.orderNumber.length = 7
      ∧ jsGet (COrder.toJson o) "status" = .ok none
      ∧ (handlePost env now st alicePayload).1.rows.getLast?
          = some (mkRow now st alicePayload aliceItems)
      ∧ (mkRow now st alicePayload aliceItems).status = "new" := by
  obtain ⟨h1, h2⟩ := handlePost_success_of_good env now st alicePayload aliceItems rfl rfl
  have hord : orderNumberOf now = "#" ++ lastSixTimestampDigits now := by
    unfold orderNumberOf
    rw [sliceLastSix_jsNatStr now h]
  have hlen : (orderNumberOf now).length = 7 := by
    rw [hord, String.length_append, length_lastSixTimestampDigits]
    rfl
  refine ⟨_, h1, rfl, rfl, rfl, ?_, hord, hlen, rfl, ?_, rfl⟩
  · show mkRat 31 2 = (15.5 : Rat)
    norm_num [Rat.mkRat_eq_divInt, Rat.divInt_eq_div]
  · rw [h2]
    exact List.getLast?_concat _

/-- Concrete instantiation of `claim5_amended`. -/
theorem claim5_witness :
    100000 ≤ 1712345678901
    ∧ ∃ o, (handlePost envNoPrint 1712345678901 store0 alicePayload).2.1 = .success o
        ∧ o.customerName = "Alice"
        ∧ o.items = .arr [aliceItem]
        ∧ jsGet aliceItem "quantity" = .ok (some (.num 2))
        ∧ o.total = 15.5
        ∧ o.orderNumber = "#" ++ lastSixTimestampDigits 1712345678901
        ∧ o.orderNumber.length = 7
        ∧ jsGet (COrder.toJson o) "status" = .ok none
        ∧ (handlePost envNoPrint 1712345678901 store0 alicePayload).1.rows.getLast?
            = some (mkRow 1712345678901 store0 alicePayload aliceItems)
        ∧ (mkRow 1712345678901 store0 alicePayload aliceItems).status = "new" :=
  ⟨by norm_num, claim5_amended envNoPrint 1712345678901 store0 (by norm_num)⟩

/-! ### Claim C3 -/

/-- C3 states the spec's required guard, which the code lacks: at a store
    holding one row whose persisted items text is not valid JSON, the
    read path of GET /api/orders propagates the deserialization error
    (Express answers 500) instead of substituting a local fallback. -/
theorem claim3_code_bug :
    handleGet storeBad none none = .error jsonParseErrMsg
    ∧ parseJson rowBad.items = none :=
  ⟨rfl, rfl⟩

/-! ### Claim C8 -/

/-- C8: PATCH /api/orders/:id always answers `{success: true}`; with an
    id matching no row every row is left unchanged; with an existing id
    only that row's status field is overwritten, every other field and
    every other row being kept intact. -/
theorem claim8_patch (st : Store) (id : Nat) (status : String) :
    (handlePatch st id status).2 = true
    ∧ ((∀ r ∈ st.rows, r.id ≠ id) → (handlePatch st id status).1 = st)
    ∧ (handlePatch st id status).1.rows.length = st.rows.length
    ∧ (handlePatch st id status).1.nextId = st.nextId
    ∧ ∀ i r, st.rows.get? i = some r →
        (r.id ≠ id → (handlePatch st id status).1.rows.get? i = some r)
        ∧ (r.id = id → ∃ r', (handlePatch st id status).1.rows.get? i = some r'
            ∧ r'.status = status ∧ r'.id = r.id ∧ r'.business_id = r.business_id
            ∧ r'.order_number = r.order_number ∧ r'.customer_name = r.customer_name
            ∧ r'.customer_phone = r.customer_phone ∧ r'.items = r.items
            ∧ r'.special_instructions = r.special_instructions ∧ r'.total = r.total
            ∧ r'.created_at = r.created_at) := by
  refine ⟨rfl, ?_, by simp [handlePatch], rfl, ?_⟩
  · intro hno
    have hmap : (st.rows.map fun r => if r.id = id then { r with status := status } else r)
        = st.rows := by
      conv_rhs => rw [← List.map_id st.rows]
      apply List.map_congr_left
      intro r hr
      rw [if_neg (hno r hr)]
      rfl
    show ({ st with rows := st.rows.map fun r =>
        if r.id = id then { r with status := status } else r } : Store) = st
    rw [hmap]
  · intro i r hr
    have hmap : (handlePatch st id status).1.rows.get? i
        = (st.rows.get? i).map
            (fun r => if r.id = id then { r with status := status } else r) := by
      show (st.rows.map fun r =>
        if r.id = id then { r with status := status } else r).get? i = _
      rw [List.get?_eq_getElem?, List.get?_eq_getElem?, List.getElem?_map]
    constructor
    · intro hne
      rw [hmap, hr]
      simp [if_neg hne]
    · intro heq
      refine ⟨{ r with status := status }, ?_, rfl, rfl, rfl, rfl, rfl, rfl, rfl, rfl, rfl, rfl⟩
      rw [hmap, hr]
      simp [heq]

/-- Concrete instantiation of `claim8_patch` at an existing id. -/
theorem claim8_witness :
    (handlePatch storeOne 1 "preparing").2 = true
    ∧ ((∀ r ∈ storeOne.rows, r.id ≠ 1) → (handlePatch storeOne 1 "preparing").1 = storeOne)
    ∧ (handlePatch storeOne 1 "preparing").1.rows.length = storeOne.rows.length
    ∧ (handlePatch storeOne 1 "preparing").1.nextId = storeOne.nextId
    ∧ ∀ i r, storeOne.rows.get? i = some r →
        (r.id ≠ 1 → (handlePatch storeOne 1 "preparing").1.rows.get? i = some r)
        ∧ (r.id = 1 → ∃ r', (handlePatch storeOne 1 "preparing").1.rows.get? i = some r'
            ∧ r'.status = "preparing" ∧ r'.id = r.id ∧ r'.business_id = r.business_id
            ∧ r'.order_number = r.order_number ∧ r'.customer_name = r.customer_name
            ∧ r'.customer_phone = r.customer_phone ∧ r'.items = r.items
            ∧ r'.special_instructions = r.special_instructions ∧ r'.total = r.total
            ∧ r'.created_at = r.created_at) :=
  claim8_patch storeOne 1 "preparing"

/-! ### Claim C4 -/

/-- Decomposition of the two-decimal rendering: `toFixed2` always ends in
    a dot followed by exactly two digit characters. -/
theorem toFixed2_decomp (q : Rat) :
    ∃ c d, toFixed2 q = c ++ "." ++ d ∧ d.length = 2 := by
  unfold toFixed2
  exact ⟨_, _, rfl, rfl⟩

/-- C4 fails as stated: `formatKitchenTicket` interpolates the current
    wall-clock time into the ticket header (server.js line 170), so two
    calls on the same order at different instants return different
    strings. -/
theorem claim4_cex :
    formatKitchenTicket aliceCOrder "10:00:00 AM"
      ≠ formatKitchenTicket aliceCOrder "10:00:01 AM" := by
  decide

/-- C4 (amended): the formatter is a pure function of the order and the
    current wall-clock rendering.  On the same order, two calls agree line
    for line except the header line carrying the clock, thrown errors
    agree exactly, and the total is always rendered with exactly two
    decimal places. -/
theorem claim4_amended (o : COrder) (t t' : String) :
    ((∃ e, ticketLines o t = .error e ∧ ticketLines o t' = .error e)
      ∨ (∃ ls ls', ticketLines o t = .ok ls ∧ ticketLines o t' = .ok ls'
          ∧ ls.length = ls'.length
          ∧ (∀ i, i ≠ 1 → ls.get? i = ls'.get? i)
          ∧ ls.get? 1 = some ("ORDER " ++ o.orderNumber ++ "     " ++ t)
          ∧ ls'.get? 1 = some ("ORDER " ++ o.orderNumber ++ "     " ++ t')
          ∧ ∃ pre, ls = pre ++ ["", "TOTAL: $" ++ toFixed2 o.total, bannerEq, "", ""]))
    ∧ (∃ c d, toFixed2 o.total = c ++ "." ++ d ∧ d.length = 2)
    ∧ formatKitchenTicket o t = (ticketLines o t).map (String.intercalate "\n") := by
  refine ⟨?_, toFixed2_decomp o.total, rfl⟩
  cases hv : o.items with
  | arr l =>
      cases hil : itemLines l with
      | error e =>
          left
          refine ⟨e, ?_, ?_⟩
          · unfold ticketLines; rw [hv]; dsimp only; rw [hil]
          · unfold ticketLines; rw [hv]; dsimp only; rw [hil]
      | ok ils =>
          right
          have ht : ∀ ts, ticketLines o ts = .ok
              ([bannerEq, "ORDER " ++ o.orderNumber ++ "     " ++ ts, bannerEq, "",
                "Customer: " ++ o.customerName]
               ++ (if o.customerPhone ≠ "" then ["Phone: " ++ o.customerPhone] else [])
               ++ ["", bannerDash] ++ ils ++ [bannerDash]
               ++ (if o.specialInstructions ≠ "" then
                    ["", "Special Instructions:", o.specialInstructions] else [])
               ++ ["", "TOTAL: $" ++ toFixed2 o.total, bannerEq, "", ""]) := by
            intro ts
            unfold ticketLines
            rw [hv]
            dsimp only
            rw [hil]
          refine ⟨_, _, ht t, ht t', by simp, ?_, rfl, rfl, ?_⟩
          · intro i hi
            match i, hi with
            | 0, _ => rfl
            | 1, h => exact absurd rfl h
            | n + 2, _ => rfl
          · refine ⟨[bannerEq, "ORDER " ++ o.orderNumber ++ "     " ++ t, bannerEq, "",
                "Customer: " ++ o.customerName]
               ++ (if o.customerPhone ≠ "" then ["Phone: " ++ o.customerPhone] else [])
               ++ ["", bannerDash] ++ ils ++ [bannerDash]
               ++ (if o.specialInstructions ≠ "" then
                    ["", "Special Instructions:", o.specialInstructions] else []), ?_⟩
            simp [List.append_assoc]
  | null =>
      left
      refine ⟨"order.items.forEach is not a function", ?_, ?_⟩
      · unfold ticketLines; rw [hv]
      · unfold ticketLines; rw [hv]
  | bool b =>
      left
      refine ⟨"order.items.forEach is not a function", ?_, ?_⟩
      · unfold ticketLines; rw [hv]
      · unfold ticketLines; rw [hv]
  | num q =>
      left
      refine ⟨"order.items.forEach is not a function", ?_, ?_⟩
      · unfold ticketLines; rw [hv]
      · unfold ticketLines; rw [hv]
  | str s =>
      left
      refine ⟨"order.items.forEach is not a function", ?_, ?_⟩
      · unfold ticketLines; rw [hv]
      · unfold ticketLines; rw [hv]
  | obj kvs =>
      left
      refine ⟨"order.items.forEach is not a function", ?_, ?_⟩
      · unfold ticketLines; rw [hv]
      · unfold ticketLines; rw [hv]

/-! ### Read-path correspondence lemmas (claims C6 and C7) -/

/-- Field-by-field relation between a stored row and the formatted order
    the read path builds from it. -/
def rowFOrderRel (r : Row) (o : FOrder) : Prop :=
  o.id = r.id ∧ o.business_id = r.business_id ∧ o.order_number = r.order_number
  ∧ o.customer_name = r.customer_name ∧ o.customer_phone = r.customer_phone
  ∧ parseJson r.items = some o.items
  ∧ o.special_instructions = r.special_instructions ∧ o.total = r.total
  ∧ o.status = r.status ∧ o.created_at = r.created_at

theorem formatRows_spec : ∀ rs l, formatRows rs = .ok l →
    List.Forall₂ rowFOrderRel rs l := by
  intro rs
  induction rs with
  | nil =>
      intro l h
      have : ([] : List FOrder) = l := Except.ok.inj h
      rw [← this]
      exact List.Forall₂.nil
  | cons r rest ih =>
      intro l h
      unfold formatRows at h
      cases hp : parseJson r.items with
      | none => rw [hp] at h; simp at h
      | some v =>
          rw [hp] at h
          dsimp only at h
          cases hrest : formatRows rest with
          | error e => rw [hrest] at h; simp at h
          | ok l' =>
              rw [hrest] at h
              dsimp only at h
              have hl : _ = l := Except.ok.inj h
              rw [← hl]
              exact List.Forall₂.cons
                ⟨rfl, rfl, rfl, rfl, rfl, hp, rfl, rfl, rfl, rfl⟩ (ih l' hrest)

theorem forall₂_mem_right {α β : Type} {R : α → β → Prop} :
    ∀ {as : List α} {bs : List β}, List.Forall₂ R as bs →
      ∀ b ∈ bs, ∃ a ∈ as, R a b := by
  intro as bs h
  induction h with
  | nil => intro b hb; cases hb
  | cons hr _ ih =>
      intro b hb
      rcases List.mem_cons.mp hb with hb | hb
      · exact ⟨_, List.mem_cons_self _ _, hb ▸ hr⟩
      · obtain ⟨a, ha, hab⟩ := ih b hb
        exact ⟨a, List.mem_cons_of_mem _ ha, hab⟩

theorem forall₂_mem_left {α β : Type} {R : α → β → Prop} :
    ∀ {as : List α} {bs : List β}, List.Forall₂ R as bs →
      ∀ a ∈ as, ∃ b ∈ bs, R a b := by
  intro as bs h
  induction h with
  | nil => intro a ha; cases ha
  | cons hr _ ih =>
      intro a ha
      rcases List.mem_cons.mp ha with ha | ha
      · exact ⟨_, List.mem_cons_self _ _, ha ▸ hr⟩
      · obtain ⟨b, hb, hab⟩ := ih a ha
        exact ⟨b, List.mem_cons_of_mem _ hb, hab⟩

theorem pairwise_of_forall₂ {α β : Type} {R : α → β → Prop}
    {S : α → α → Prop} {T : β → β → Prop}
    (hcomp : ∀ a a' b b', R a b → R a' b' → S a a' → T b b') :
    ∀ {as : List α} {bs : List β}, List.Forall₂ R as bs →
      as.Pairwise S → bs.Pairwise T := by
  intro as bs h
  induction h with
  | nil => intro _; exact List.Pairwise.nil
  | cons hr hrest ih =>
      intro hp
      rcases List.pairwise_cons.mp hp with ⟨hhead, htail⟩
      refine List.Pairwise.cons ?_ (ih htail)
      intro b' hb'
      obtain ⟨a', ha', hr'⟩ := forall₂_mem_right hrest b' hb'
      exact hcomp _ _ _ _ hr hr' (hhead a' ha')

theorem selectRows_length (st : Store) (bid status : Option String) :
    (selectRows st bid status).length ≤ 100 := by
  unfold selectRows
  exact List.length_take_le 100 _

theorem selectRows_sorted (st : Store) (bid status : Option String) :
    (selectRows st bid status).Pairwise (fun a b => b.created_at ≤ a.created_at) := by
  unfold selectRows
  exact (List.sorted_insertionSort _ _).sublist (List.take_sublist _ _)

theorem selectRows_mem (st : Store) (bid status : Option String) (r : Row)
    (h : r ∈ selectRows st bid status) :
    r ∈ st.rows ∧ rowMatches bid status r = true := by
  unfold selectRows at h
  have h1 := List.take_subset _ _ h
  have h2 := (List.perm_insertionSort _ _).subset h1
  have h3 := List.mem_filter.mp h2
  exact ⟨h3.1, h3.2⟩

theorem selectRows_all (st : Store) (h : st.rows.length ≤ 100) :
    ∀ r ∈ st.rows, r ∈ selectRows st none none := by
  intro r hr
  unfold selectRows
  have hfilter : st.rows.filter (rowMatches none none) = st.rows :=
    List.filter_eq_self.mpr (fun a _ => rfl)
  rw [hfilter]
  have hlen : (List.insertionSort (fun a b => b.created_at ≤ a.created_at)
      st.rows).length = st.rows.length :=
    (List.perm_insertionSort _ _).length_eq
  rw [List.take_of_length_le (by rw [hlen]; exact h)]
  exact ((List.perm_insertionSort _ _).mem_iff).mpr hr

/-! ### Claim C7 -/

/-- C7 fails as stated on one edge: a *supplied* empty-string filter is
    falsy in JavaScript, so the WHERE clause is skipped and a row whose
    business id is not the empty string is still returned. -/
theorem claim7_cex :
    headBizId (handleGet storeOne (some "") none) = some "pizza-place"
    ∧ ("pizza-place" : String) ≠ "" :=
  ⟨rfl, by decide⟩

/-- C7 (amended): GET /api/orders returns at most 100 orders, sorted by
    creation time descending; every returned order matches each supplied
    *nonempty* filter exactly (an empty-string filter value is treated as
    omitted); and when both filters are omitted and at most 100 rows are
    stored, every stored row is returned. -/
theorem claim7_amended (st : Store) (bid status : Option String) (l : List FOrder)
    (h : handleGet st bid status = .ok l) :
    l.length ≤ 100
    ∧ l.Pairwise (fun a b => b.created_at ≤ a.created_at)
    ∧ (∀ o ∈ l, ∀ s, bid = some s → s ≠ "" → o.business_id = s)
    ∧ (∀ o ∈ l, ∀ s, status = some s → s ≠ "" → o.status = s)
    ∧ (bid = none → status = none → st.rows.length ≤ 100 →
        ∀ r ∈ st.rows, ∃ o ∈ l, o.id = r.id ∧ o.business_id = r.business_id
          ∧ o.status = r.status ∧ o.created_at = r.created_at
          ∧ parseJson r.items = some o.items) := by
  unfold handleGet at h
  have hf2 := formatRows_spec _ _ h
  refine ⟨?_, ?_, ?_, ?_, ?_⟩
  · rw [← hf2.length_eq]
    exact selectRows_length st bid status
  · refine pairwise_of_forall₂ ?_ hf2 (selectRows_sorted st bid status)
    intro a a' b b' hab hab' hs
    have h1 : b.created_at = a.created_at := hab.2.2.2.2.2.2.2.2.2
    have h2 : b'.created_at = a'.created_at := hab'.2.2.2.2.2.2.2.2.2
    rw [h1, h2]
    exact hs
  · intro o ho s hs hne
    obtain ⟨r, hr, hrel⟩ := forall₂_mem_right hf2 o ho
    have hm := (selectRows_mem st bid status r hr).2
    rw [hs] at hm
    unfold rowMatches at hm
    rw [Bool.and_eq_true] at hm
    have hm1 := hm.1
    dsimp only at hm1
    rw [if_neg hne] at hm1
    have : r.business_id = s := by simpa using hm1
    rw [hrel.2.1, this]
  · intro o ho s hs hne
    obtain ⟨r, hr, hrel⟩ := forall₂_mem_right hf2 o ho
    have hm := (selectRows_mem st bid status r hr).2
    rw [hs] at hm
    unfold rowMatches at hm
    rw [Bool.and_eq_true] at hm
    have hm2 := hm.2
    dsimp only at hm2
    rw [if_neg hne] at hm2
    have : r.status = s := by simpa using hm2
    rw [hrel.2.2.2.2.2.2.2.2.1, this]
  · intro hb hsstat hlen r hr
    subst hb
    subst hsstat
    have hsel := selectRows_all st hlen r hr
    obtain ⟨o, ho, hrel⟩ := forall₂_mem_left hf2 r hsel
    exact ⟨o, ho, hrel.1, hrel.2.1, hrel.2.2.2.2.2.2.2.2.1,
      hrel.2.2.2.2.2.2.2.2.2, hrel.2.2.2.2.2.1⟩

/-- Concrete instantiation of `claim7_amended`. -/
theorem claim7_witness :
    handleGet storeOne none none = .ok [fOrderPizza]
    ∧ ([fOrderPizza].length ≤ 100
       ∧ [fOrderPizza].Pairwise (fun a b => b.created_at ≤ a.created_at)
       ∧ (∀ o ∈ [fOrderPizza], ∀ s, (none : Option String) = some s → s ≠ "" →
            o.business_id = s)
       ∧ (∀ o ∈ [fOrderPizza], ∀ s, (none : Option String) = some s → s ≠ "" →
            o.status = s)
       ∧ ((none : Option String) = none → (none : Option String) = none →
            storeOne.rows.length ≤ 100 →
            ∀ r ∈ storeOne.rows, ∃ o ∈ [fOrderPizza], o.id = r.id
              ∧ o.business_id = r.business_id ∧ o.status = r.status
              ∧ o.created_at = r.created_at ∧ parseJson r.items = some o.items)) :=
  ⟨rfl, claim7_amended storeOne none none [fOrderPizza] rfl⟩

/-! ### Claim C6 -/

/-- C6 fails as stated: the elements of the GET /api/orders response
    carry the snake_case column names of the row spread, not the §3
    camelCase field names — `businessId` is absent while `business_id` is
    present. -/
theorem claim6_cex :
    headOrderField (handleGet storeOne none none) "businessId" = some (.ok none)
    ∧ headOrderField (handleGet storeOne none none) "business_id"
        = some (.ok (some (.str "pizza-place")))
    ∧ headOrderField (handleGet storeOne none none) "orderNumber" = some (.ok none)
    ∧ headOrderField (handleGet storeOne none none) "order_number"
        = some (.ok (some (.str "#678901"))) :=
  ⟨rfl, rfl, rfl, rfl⟩

/-- C6 (amended): every element of a successful GET /api/orders response
    is the spread of a stored row, carrying the fields under their
    snake_case column names — id, business_id, order_number,
    customer_name, customer_phone, items, special_instructions, total,
    status, created_at — with `items` deserialized into the structured
    value parsed from the stored text. -/
theorem claim6_amended (st : Store) (bid status : Option String) (l : List FOrder)
    (h : handleGet st bid status = .ok l) :
    ∀ o ∈ l,
      jsGet (FOrder.toJson o) "id" = .ok (some (.num (mkRat o.id 1)))
      ∧ jsGet (FOrder.toJson o) "business_id" = .ok (some (.str o.business_id))
      ∧ jsGet (FOrder.toJson o) "order_number" = .ok (some (.str o.order_number))
      ∧ jsGet (FOrder.toJson o) "customer_name" = .ok (some (.str o.customer_name))
      ∧ jsGet (FOrder.toJson o) "customer_phone" = .ok (some (.str o.customer_phone))
      ∧ jsGet (FOrder.toJson o) "items" = .ok (some o.items)
      ∧ jsGet (FOrder.toJson o) "special_instructions"
          = .ok (some (.str o.special_instructions))
      ∧ jsGet (FOrder.toJson o) "total" = .ok (some (.num o.total))
      ∧ jsGet (FOrder.toJson o) "status" = .ok (some (.str o.status))
      ∧ jsGet (FOrder.toJson o) "created_at" = .ok (some (.num (mkRat o.created_at 1)))
      ∧ ∃ r ∈ st.rows, parseJson r.items = some o.items
          ∧ o.id = r.id ∧ o.status = r.status := by
  unfold handleGet at h
  have hf2 := formatRows_spec _ _ h
  intro o ho
  obtain ⟨r, hr, hrel⟩ := forall₂_mem_right hf2 o ho
  have hrow := (selectRows_mem st bid status r hr).1
  exact ⟨rfl, rfl, rfl, rfl, rfl, rfl, rfl, rfl, rfl, rfl,
    r, hrow, hrel.2.2.2.2.2.1, hrel.1, hrel.2.2.2.2.2.2.2.2.1⟩

/-- Concrete instantiation of `claim6_amended`. -/
theorem claim6_witness :
    handleGet storeOne none none = .ok [fOrderPizza]
    ∧ ∀ o ∈ [fOrderPizza],
        jsGet (FOrder.toJson o) "id" = .ok (some (.num (mkRat o.id 1)))
        ∧ jsGet (FOrder.toJson o) "business_id" = .ok (some (.str o.business_id))
        ∧ jsGet (FOrder.toJson o) "order_number" = .ok (some (.str o.order_number))
        ∧ jsGet (FOrder.toJson o) "customer_name" = .ok (some (.str o.customer_name))
        ∧ jsGet (FOrder.toJson o) "customer_phone" = .ok (some (.str o.customer_phone))
        ∧ jsGet (FOrder.toJson o) "items" = .ok (some o.items)
        ∧ jsGet (FOrder.toJson o) "special_instructions"
            = .ok (some (.str o.special_instructions))
        ∧ jsGet (FOrder.toJson o) "total" = .ok (some (.num o.total))
        ∧ jsGet (FOrder.toJson o) "status" = .ok (some (.str o.status))
        ∧ jsGet (FOrder.toJson o) "created_at" = .ok (some (.num (mkRat o.created_at 1)))
        ∧ ∃ r ∈ storeOne.rows, parseJson r.items = some o.items
            ∧ o.id = r.id ∧ o.status = r.status :=
  ⟨rfl, claim6_amended storeOne none none [fOrderPizza] rfl⟩

end PrintServer
